import Mathlib

/-! Shallow embedding of the slack-tool repository (src/src/archiver.py,
src/src/converter.py, src/main.py).

The remote Slack API is modelled as a deterministic script of page
responses: each successive API call consumes the next entry of a list, an
entry being either a successful page payload (`Except.ok`) or a
`SlackApiError` (`Except.error`).  An uncaught Python exception is
modelled by `Except.error`; a Python function that returns `None` on a
handled failure is modelled by `Option`. -/

/-- Raw Slack message record (a Python `dict`), restricted to the keys the
archiver reads or writes.  `none` models an absent key. `has_thread`
models the `_has_thread` key (absent = `false`). -/
structure BMsg where
  ts : Option String := none
  user : Option String := none
  text : Option String := none
  subtype : Option String := none
  reply_count : Option Nat := none
  user_name : Option String := none
  timestamp_readable : Option String := none
  has_thread : Bool := false
deriving DecidableEq

/-- A message dict as it appears in an archive document: the raw keys plus
the optional `thread_messages` key attached by `archive_channel`.  Within
this program only top-level messages ever receive a `thread_messages`
key, and the attached replies are the raw dicts returned by
`conversations_replies`, so the nesting is one level deep. -/
structure Msg where
  base : BMsg
  thread_messages : Option (List BMsg) := none
deriving DecidableEq

/-- Numeric value of a digit string (the usual base-10 reading). -/
def digitsToNat (l : List Char) : Nat := l.foldl (fun n c => 10 * n + (c.toNat - 48)) 0

/-- Integer power of ten. -/
def pow10 : Nat → Int
  | 0 => 1
  | k + 1 => 10 * pow10 k

/-- Exact value of a decimal literal, `num / 10 ^ exp`.  A self-contained
representation is used so that comparisons reduce to integer arithmetic;
the representation is not canonical, but only the order matters to the
program (the sort key) and the order is the exact rational one. -/
structure DecVal where
  num : Int
  exp : Nat
deriving DecidableEq

/-- The exact rational order on decimal values:
`a.num / 10 ^ a.exp ≤ b.num / 10 ^ b.exp`, cleared of denominators. -/
def dec_le (a b : DecVal) : Prop := a.num * pow10 b.exp ≤ b.num * pow10 a.exp

instance : DecidableRel dec_le :=
  fun a b => inferInstanceAs (Decidable (a.num * pow10 b.exp ≤ b.num * pow10 a.exp))

/-- Optional exponent suffix of a Python float literal (`e`/`E`, optional
sign, digits); the whole remainder must be consumed. -/
def parse_exp_suffix (v : DecVal) (l : List Char) : Option DecVal :=
  match l with
  | [] => some v
  | e :: r =>
    if e = 'e' || e = 'E' then
      let sr : Bool × List Char :=
        match r with
        | '+' :: t => (false, t)
        | '-' :: t => (true, t)
        | t => (false, t)
      let ds := sr.2.takeWhile Char.isDigit
      if ds.isEmpty then none
      else if (sr.2.drop ds.length).isEmpty then
        some (if sr.1 then { num := v.num, exp := v.exp + digitsToNat ds }
              else { num := v.num * pow10 (digitsToNat ds), exp := v.exp })
      else none
    else none

/-- Unsigned part of a Python float literal: `d+`, `d+.d*` or `.d+`, with
an optional exponent. -/
def parse_unsigned_float (l : List Char) : Option DecVal :=
  let ip := l.takeWhile Char.isDigit
  let r1 := l.drop ip.length
  match r1 with
  | '.' :: r2 =>
    let fp := r2.takeWhile Char.isDigit
    let r3 := r2.drop fp.length
    if ip.isEmpty && fp.isEmpty then none
    else parse_exp_suffix { num := (digitsToNat (ip ++ fp) : Int), exp := fp.length } r3
  | _ =>
    if ip.isEmpty then none
    else parse_exp_suffix { num := (digitsToNat ip : Int), exp := 0 } r1

/-- Model of Python `float(s)` on a string: `some` of the exact value
when the string is plain decimal notation (optionally signed, with
optional fraction and exponent), `none` when `float` raises `ValueError`.
Exotic accepted spellings (`inf`, `nan`, internal underscores, surrounding
whitespace) are outside the inputs this program meets and are not
modelled. -/
def parse_float (s : String) : Option DecVal :=
  match s.data with
  | '+' :: r => parse_unsigned_float r
  | '-' :: r => (parse_unsigned_float r).map (fun v => { num := -v.num, exp := v.exp })
  | r => parse_unsigned_float r

/-- Sort key of a message, from `float(m.get('ts', 0))` in
`get_channel_history` (src/src/archiver.py line 156): an absent `ts` key
yields `float(0)`; a present key is parsed and may fail (`none`). -/
def ts_key (m : BMsg) : Option DecVal :=
  match m.ts with
  | none => some { num := 0, exp := 0 }
  | some s => parse_float s

/-- Defaulted numeric key, meaningful when `ts_key` succeeded. -/
def ts_key_val (m : BMsg) : DecVal := (ts_key m).getD { num := 0, exp := 0 }

/-- Non-decreasing order on messages by numeric timestamp. -/
def bmsg_le (a b : BMsg) : Prop := dec_le (ts_key_val a) (ts_key_val b)

instance : DecidableRel bmsg_le :=
  fun a b => inferInstanceAs (Decidable (dec_le (ts_key_val a) (ts_key_val b)))

theorem pow10_pos (k : Nat) : 0 < pow10 k := by
  induction k with
  | zero => decide
  | succ k ih => exact mul_pos (by decide) ih

theorem dec_le_total (a b : DecVal) : dec_le a b ∨ dec_le b a :=
  le_total (a.num * pow10 b.exp) (b.num * pow10 a.exp)

theorem dec_le_trans {a b c : DecVal} (h1 : dec_le a b) (h2 : dec_le b c) : dec_le a c := by
  unfold dec_le at *
  have h1c := mul_le_mul_of_nonneg_right h1 (le_of_lt (pow10_pos c.exp))
  have h2a := mul_le_mul_of_nonneg_right h2 (le_of_lt (pow10_pos a.exp))
  have hc : a.num * pow10 c.exp * pow10 b.exp ≤ c.num * pow10 a.exp * pow10 b.exp := by
    calc a.num * pow10 c.exp * pow10 b.exp
        = a.num * pow10 b.exp * pow10 c.exp := by ring
      _ ≤ b.num * pow10 a.exp * pow10 c.exp := h1c
      _ = b.num * pow10 c.exp * pow10 a.exp := by ring
      _ ≤ c.num * pow10 b.exp * pow10 a.exp := h2a
      _ = c.num * pow10 a.exp * pow10 b.exp := by ring
  exact le_of_mul_le_mul_right hc (pow10_pos b.exp)

instance : IsTotal BMsg bmsg_le := ⟨fun a b => dec_le_total (ts_key_val a) (ts_key_val b)⟩

instance : IsTrans BMsg bmsg_le := ⟨fun _ _ _ h1 h2 => dec_le_trans h1 h2⟩

/-- Order on archived (enriched) messages by numeric timestamp. -/
def msg_le (a b : Msg) : Prop := bmsg_le a.base b.base

/-- One `conversations_history` / `conversations_replies` response page. -/
structure HistPage where
  messages : List BMsg := []
  has_more : Bool := false
deriving DecidableEq

/-- Accumulation loop shared by `get_channel_history` and
`get_thread_messages` (src/src/archiver.py lines 131-153 and 174-195):
extend with each page's messages, stop when `has_more` is falsy; a
`SlackApiError` stops the loop keeping what was accumulated so far. -/
def fetch_hist_pages : List (Except Unit HistPage) → List BMsg
  | [] => []
  | Except.error _ :: _ => []
  | Except.ok p :: rest => p.messages ++ (if p.has_more then fetch_hist_pages rest else [])

/-- Whether every accumulated message's sort key can be computed, i.e.
whether `all_messages.sort(key=lambda m: float(m.get('ts', 0)))` runs
without raising `ValueError`.  CPython computes every key before
comparing, so the sort raises iff some key fails. -/
def history_keys_ok (l : List BMsg) : Bool := l.all (fun m => (ts_key m).isSome)

/-- `SlackArchiver.get_channel_history` (src/src/archiver.py lines
111-158): paginated accumulation (partial on `SlackApiError`), then an
unconditional sort by `float(m.get('ts', 0))`.  The sort call sits
outside the `try`, so a message whose `ts` does not parse raises an
uncaught `ValueError`, modelled as `Except.error`.  Python's sort is
stable, as is `List.insertionSort`, so the embedding produces the same
list. -/
def get_channel_history (script : List (Except Unit HistPage)) : Except Unit (List BMsg) :=
  if history_keys_ok (fetch_hist_pages script) then
    Except.ok (List.insertionSort bmsg_le (fetch_hist_pages script))
  else Except.error ()

/-- `SlackArchiver.get_thread_messages` (src/src/archiver.py lines
160-197): same accumulation loop, no sort and no filtering — the
returned list is exactly what `conversations_replies` delivered
(which, per the Slack API, includes the parent message first). -/
def get_thread_messages (script : List (Except Unit HistPage)) : List BMsg :=
  fetch_hist_pages script

/-- Channel record, restricted to the two keys the archiver reads. -/
structure Chan where
  id : String
  name : String
deriving DecidableEq

/-- One `conversations_list` response page. -/
structure ChanPage where
  channels : List Chan := []
  next_cursor : Option String := none
deriving DecidableEq

/-- Python truthiness of `response.get('response_metadata', {}).get('next_cursor')`:
falsy when the key is absent or the cursor is the empty string. -/
def cursor_truthy : Option String → Bool
  | none => false
  | some s => !s.isEmpty

/-- Accumulation loop of `get_all_channels` (src/src/archiver.py lines
86-108): extend with each page's channels, stop when no next cursor; a
`SlackApiError` stops the loop keeping what was accumulated so far. -/
def fetch_chan_pages : List (Except Unit ChanPage) → List Chan
  | [] => []
  | Except.error _ :: _ => []
  | Except.ok p :: rest => p.channels ++ (if cursor_truthy p.next_cursor then fetch_chan_pages rest else [])

/-- `SlackArchiver.get_all_channels` (src/src/archiver.py lines 73-109):
returns the accumulated channel list; never raises on `SlackApiError`. -/
def get_all_channels (script : List (Except Unit ChanPage)) : List Chan :=
  fetch_chan_pages script

/-- User record as read by `_load_users_cache`: the `id`, `real_name` and
`name` keys (`none` models an absent key). -/
structure UserRec where
  id : String
  real_name : Option String := none
  name : Option String := none
deriving DecidableEq

/-- Display name stored for one user record, from
`user.get('real_name') or user.get('name', 'Unknown')`
(src/src/archiver.py line 57): the `or` falls through when `real_name` is
absent or an empty (falsy) string; `get('name', 'Unknown')` defaults only
when the `name` key is absent, so a present empty `name` is stored as
is. -/
def user_display_name (u : UserRec) : String :=
  let fallback := match u.name with
    | some t => t
    | none => "Unknown"
  match u.real_name with
  | some s => if s.isEmpty then fallback else s
  | none => fallback

/-- One `users_list` response page. -/
structure UserPage where
  members : List UserRec := []
  next_cursor : Option String := none
deriving DecidableEq

/-- Pagination loop of `_load_users_cache` (src/src/archiver.py lines
50-63): same cursor-terminated accumulation; a `SlackApiError` keeps the
users loaded so far (the surrounding `try` only logs a warning). -/
def fetch_user_pages : List (Except Unit UserPage) → List UserRec
  | [] => []
  | Except.error _ :: _ => []
  | Except.ok p :: rest => p.members ++ (if cursor_truthy p.next_cursor then fetch_user_pages rest else [])

/-- The dict `self.users_cache` after inserting each user record in order
(`self.users_cache[user_id] = user_name`, line 58); a later record with
the same id overwrites an earlier one. -/
def users_cache_of (users : List UserRec) : String → Option String :=
  users.foldl (fun m u k => if k = u.id then some (user_display_name u) else m k) (fun _ => none)

/-- `SlackArchiver._load_users_cache` (src/src/archiver.py lines 48-67). -/
def _load_users_cache (script : List (Except Unit UserPage)) : String → Option String :=
  users_cache_of (fetch_user_pages script)

/-- `SlackArchiver._get_user_name` (src/src/archiver.py lines 69-71):
`self.users_cache.get(user_id, user_id)`. -/
def _get_user_name (cache : String → Option String) (user_id : String) : String :=
  (cache user_id).getD user_id

/-- Default rendering of a human-readable timestamp, used by the
concrete scenarios.  The program computes
`datetime.fromtimestamp(ts).isoformat()`, whose exact rendering — and
whose failure range — depend on the host clock, timezone and platform,
which lie outside the program; the conversion's outcome is therefore a
component of the run environment (`ChanEnv.fromtimestamp`), and this
function is the total default.  The claims about this field only
concern its presence or absence. -/
def render_timestamp (v : DecVal) : String :=
  toString v.num ++ "e-" ++ toString v.exp

/-- `SlackArchiver._enrich_message` (src/src/archiver.py lines 199-216),
applied to one dict: add `user_name` when a `user` key is present, set
`_has_thread` when `reply_count` is present and positive, and add
`timestamp_readable` when the `ts` key is present, `float` parses it,
and `datetime.fromtimestamp(...).isoformat()` returns — the
`except (ValueError, OSError)` at line 213 catches failures of both
calls, and either failure is logged and the field simply not added.
The dict's
`thread_messages` key, when present, is untouched: the comprehension at
line 292 maps over the top-level list only.  The three sequential key
updates are modelled as three stage functions; this is the first
(lines 201-202). -/
def enrich_user_stage (cache : String → Option String) (b : BMsg) : BMsg :=
  match b.user with
  | some u => { b with user_name := some (_get_user_name cache u) }
  | none => b

/-- Second step of `_enrich_message` (lines 205-206): set `_has_thread`
when `reply_count` is present and positive. -/
def enrich_flag_stage (b : BMsg) : BMsg :=
  match b.reply_count with
  | some n => if 0 < n then { b with has_thread := true } else b
  | none => b

/-- Third step of `_enrich_message` (lines 209-214): add
`timestamp_readable` when the `ts` key is present, `float(message['ts'])`
parses, and `datetime.fromtimestamp(ts).isoformat()` returns; the
`except (ValueError, OSError)` covers both the parse and the calendar
conversion (which raises for parseable but out-of-range values), so
either failure only skips the field.  `fts` is the environment's
conversion outcome: `some` of the rendered string, `none` when
`fromtimestamp` raises. -/
def enrich_ts_stage (fts : DecVal → Option String) (b : BMsg) : BMsg :=
  match b.ts with
  | some s =>
    match parse_float s with
    | some q =>
      match fts q with
      | some r => { b with timestamp_readable := some r }
      | none => b
    | none => b
  | none => b

def _enrich_message (fts : DecVal → Option String) (cache : String → Option String)
    (m : Msg) : Msg :=
  { m with base := enrich_ts_stage fts (enrich_flag_stage (enrich_user_stage cache m.base)) }

/-- Thread attachment for one message (src/src/archiver.py lines
286-289): when `message.get('reply_count', 0) > 0`, fetch the thread for
`message['ts']` and store it verbatim under `thread_messages`.  Reading
`message['ts']` on a dict without a `ts` key would raise `KeyError`
(modelled `Except.error`); other messages are left without the key. -/
def attach_one (threads : String → List (Except Unit HistPage)) (m : BMsg) : Except Unit Msg :=
  if 0 < m.reply_count.getD 0 then
    match m.ts with
    | some t => Except.ok { base := m, thread_messages := some (get_thread_messages (threads t)) }
    | none => Except.error ()
  else Except.ok { base := m, thread_messages := none }

/-- The `include_threads` loop of `archive_channel` (src/src/archiver.py
lines 285-289) over the whole message list. -/
def attach_threads (threads : String → List (Except Unit HistPage)) : List BMsg → Except Unit (List Msg)
  | [] => Except.ok []
  | m :: rest =>
    match attach_one threads m with
    | Except.error e => Except.error e
    | Except.ok m2 =>
      match attach_threads threads rest with
      | Except.error e => Except.error e
      | Except.ok l => Except.ok (m2 :: l)

/-- `conversations_info` channel payload, restricted to the keys read at
src/src/archiver.py lines 300-304 (each flattened to the value actually
extracted; `none` models an absent key, for which the code substitutes a
default via `.get`). -/
structure ChanInfo where
  topic_value : Option String := none
  purpose_value : Option String := none
  is_private : Option Bool := none
  created : Option Nat := none
  num_members : Option Nat := none
deriving DecidableEq

/-- The environment one `archive_channel` call runs against: the
`conversations_info` outcome, the `conversations_history` script, a
`conversations_replies` script per thread timestamp, the users cache
loaded at initialization, the host's `datetime.fromtimestamp` outcome
(timezone- and platform-dependent, raising for out-of-range values),
whether the file write succeeds, and the two renderings of
`datetime.now()` taken during the call (`isoformat` for the metadata,
`'%Y%m%d_%H%M%S'` for the filename). -/
structure ChanEnv where
  info : Except Unit ChanInfo
  history : List (Except Unit HistPage) := []
  threads : String → List (Except Unit HistPage) := fun _ => []
  cache : String → Option String := fun _ => none
  fromtimestamp : DecVal → Option String := fun v => some (render_timestamp v)
  save_ok : Bool := true
  archived_at : String := ""
  stamp : String := ""

/-- The `metadata` object of an archive document (src/src/archiver.py
lines 296-305). -/
structure ArchiveMeta where
  archived_at : String
  channel_id : String
  channel_name : String
  channel_topic : String
  channel_purpose : String
  is_private : Bool
  created : Option Nat
  member_count : Nat
deriving DecidableEq

/-- An archive document (src/src/archiver.py lines 295-308). -/
structure ArchiveDoc where
  metadata : ArchiveMeta
  messages : List Msg
  message_count : Nat
deriving DecidableEq

/-- `channel_name.replace('/', '-').replace('\\', '-')`
(src/src/archiver.py line 311). -/
def sanitize_channel_name (s : String) : String :=
  String.mk (s.data.map (fun c => if c = '/' || c = '\\' then '-' else c))

/-- The archive filename (src/src/archiver.py lines 311-313), relative to
the archive directory: sanitized channel name, an underscore, the
seconds-granularity timestamp, and the `.json` suffix. -/
def mk_filename (channel_name stamp : String) : String :=
  sanitize_channel_name channel_name ++ "_" ++ stamp ++ ".json"

/-- The `archive_data` dict built at src/src/archiver.py lines 295-308:
run metadata from the `conversations_info` payload, the enriched
message list (the comprehension of line 292 over the top-level list),
and its length as `message_count`. -/
def mk_archive_data (env : ChanEnv) (cinfo : ChanInfo) (channel_id channel_name : String)
    (with_threads : List Msg) : ArchiveDoc :=
  { metadata := {
      archived_at := env.archived_at
      channel_id := channel_id
      channel_name := channel_name
      channel_topic := cinfo.topic_value.getD ""
      channel_purpose := cinfo.purpose_value.getD ""
      is_private := cinfo.is_private.getD false
      created := cinfo.created
      member_count := cinfo.num_members.getD 0 }
    messages := with_threads.map (_enrich_message env.fromtimestamp env.cache)
    message_count := (with_threads.map (_enrich_message env.fromtimestamp env.cache)).length }

/-- `SlackArchiver.archive_channel` (src/src/archiver.py lines 254-324).
`Except.ok none` models `return None` (failed `conversations_info` or
failed file write); `Except.error` models an uncaught exception
propagating out (in particular the `ValueError` from
`get_channel_history`'s sort).  On success the result carries the
document that was serialized together with the returned file path. -/
def archive_channel (env : ChanEnv) (channel_id channel_name : String) (include_threads : Bool) :
    Except Unit (Option (ArchiveDoc × String)) :=
  match env.info with
  | Except.error _ => Except.ok none
  | Except.ok cinfo =>
    match get_channel_history env.history with
    | Except.error e => Except.error e
    | Except.ok msgs =>
      match (if include_threads then attach_threads env.threads msgs
             else Except.ok (msgs.map (fun m => { base := m, thread_messages := none }))) with
      | Except.error e => Except.error e
      | Except.ok with_threads =>
        if env.save_ok then
          Except.ok (some (mk_archive_data env cinfo channel_id channel_name with_threads,
                           mk_filename channel_name env.stamp))
        else Except.ok none

/-- The per-channel loop of `archive_all_channels` (src/src/archiver.py
lines 348-367): a `some` path is appended to `saved_files`; a `None`
result or an exception raised while processing the channel appends the
channel name to `failed_channels` and continues with the next channel. -/
def archive_channels_loop (envOf : Chan → ChanEnv) (include_threads : Bool) :
    List Chan → List String × List String
  | [] => ([], [])
  | ch :: rest =>
    let r := archive_channel (envOf ch) ch.id ch.name include_threads
    let acc := archive_channels_loop envOf include_threads rest
    match r with
    | Except.ok (some (_, p)) => (p :: acc.1, acc.2)
    | Except.ok none => (acc.1, ch.name :: acc.2)
    | Except.error _ => (acc.1, ch.name :: acc.2)

/-- `SlackArchiver.archive_all_channels` (src/src/archiver.py lines
326-373): enumerate channels, then archive each in turn; returns the pair
(`saved_files`, `failed_channels`) — the source returns `saved_files` and
logs `failed_channels`. -/
def archive_all_channels (chan_script : List (Except Unit ChanPage)) (envOf : Chan → ChanEnv)
    (include_threads : Bool) : List String × List String :=
  archive_channels_loop envOf include_threads (get_all_channels chan_script)

/-- Keyword parameters accepted by `SlackArchiver.get_all_channels`
(src/src/archiver.py line 73): the signature is
`def get_all_channels(self, exclude_archived: bool = True)` — there is no
`only_joined` parameter and no `**kwargs`. -/
def get_all_channels_kw_params : List String := ["exclude_archived"]

/-- Keyword parameters accepted by `SlackArchiver.archive_all_channels`
(src/src/archiver.py lines 326-330). -/
def archive_all_channels_kw_params : List String := ["exclude_archived", "include_threads"]

/-- Keyword arguments `main.py` passes to `archiver.get_all_channels`
(src/main.py lines 153-156, also 179-182 and 207-210):
`exclude_archived=...` and `only_joined=args.only_joined` are always
passed, whether or not `--only-joined` was given. -/
def main_list_call_keywords : List String := ["exclude_archived", "only_joined"]

/-- Keyword arguments `main.py` passes to `archiver.archive_all_channels`
(src/main.py lines 168-172). -/
def main_archive_all_call_keywords : List String :=
  ["exclude_archived", "include_threads", "only_joined"]

/-- A Python keyword call binds without `TypeError` iff every keyword
names a declared parameter (none of these signatures has `**kwargs`). -/
def py_kwargs_accepted (params keywords : List String) : Bool :=
  keywords.all (fun k => params.contains k)

/-- Fuelled driver for Python `re.sub` / the specific patterns of
`SlackArchiveConverter` (src/src/converter.py lines 22-25): scan left to
right; at each position either a match of `n + 1` characters is replaced
(scanning resumes after the match, not inside the replacement) or one
character is copied.  The fuel starts at the input length and each step
consumes at least one input character, so it never runs out. -/
def applySubF (f : List Char → Option (List Char × Nat)) : Nat → List Char → List Char
  | _, [] => []
  | 0, l => l
  | fuel + 1, c :: rest =>
    match f (c :: rest) with
    | some (rep, n) => rep ++ applySubF f fuel (rest.drop n)
    | none => c :: applySubF f fuel rest

/-- `re.sub` with the given single-pattern matcher. -/
def applySub (f : List Char → Option (List Char × Nat)) (l : List Char) : List Char :=
  applySubF f l.length l

/-- Matcher for `user_mention_pattern` (src/src/converter.py line 23),
the regular expression `<@([A-Z0-9]+)(\|[^>]+)?>` with replacement
`@\1`.  Both character classes exclude the characters that must follow
them, so maximal munch is exact and the scan is deterministic.  A `some`
result carries the replacement and the consumed length minus one. -/
def userMentionMatch : List Char → Option (List Char × Nat)
  | '<' :: '@' :: rest =>
    let g1 := rest.takeWhile (fun c => c.isUpper || c.isDigit)
    if g1.isEmpty then none
    else
      match rest.drop g1.length with
      | '>' :: _ => some ('@' :: g1, g1.length + 2)
      | '|' :: r3 =>
        let g2 := r3.takeWhile (fun c => c != '>')
        if g2.isEmpty then none
        else
          match r3.drop g2.length with
          | '>' :: _ => some ('@' :: g1, g1.length + g2.length + 3)
          | _ => none
      | _ => none
  | _ => none

/-- Matcher for `channel_mention_pattern` (src/src/converter.py line 24),
`<#([A-Z0-9]+)(\|[^>]+)?>` with replacement `#\1`. -/
def channelMentionMatch : List Char → Option (List Char × Nat)
  | '<' :: '#' :: rest =>
    let g1 := rest.takeWhile (fun c => c.isUpper || c.isDigit)
    if g1.isEmpty then none
    else
      match rest.drop g1.length with
      | '>' :: _ => some ('#' :: g1, g1.length + 2)
      | '|' :: r3 =>
        let g2 := r3.takeWhile (fun c => c != '>')
        if g2.isEmpty then none
        else
          match r3.drop g2.length with
          | '>' :: _ => some ('#' :: g1, g1.length + g2.length + 3)
          | _ => none
      | _ => none
  | _ => none

/-- The characters after `http` in `https?://`: the optional `s` then
`://`; returns them and the remainder.  When the input starts with
`s://`-less text both greedy and empty choices for `s?` fail together,
so the deterministic split is faithful. -/
def schemeSplit : List Char → Option (List Char × List Char)
  | 's' :: ':' :: '/' :: '/' :: r => some (['s', ':', '/', '/'], r)
  | ':' :: '/' :: '/' :: r => some ([':', '/', '/'], r)
  | _ => none

/-- The replacement template `<a href="\1" target="_blank">\3</a>` of
src/src/converter.py line 39; an unmatched optional group substitutes as
the empty string. -/
def anchorOf (g1 g3 : List Char) : List Char :=
  "<a href=\"".data ++ g1 ++ "\" target=\"_blank\">".data ++ g3 ++ "</a>".data

/-- Matcher for `url_pattern` (src/src/converter.py line 25),
`<(https?://[^|>]+)(\|([^>]+))?>`, with the anchor replacement used for
the HTML format. -/
def urlMatch : List Char → Option (List Char × Nat)
  | '<' :: 'h' :: 't' :: 't' :: 'p' :: r0 =>
    match schemeSplit r0 with
    | none => none
    | some (tail, r1) =>
      let body := r1.takeWhile (fun c => c != '|' && c != '>')
      if body.isEmpty then none
      else
        let g1 := 'h' :: 't' :: 't' :: 'p' :: (tail ++ body)
        match r1.drop body.length with
        | '>' :: _ => some (anchorOf g1 [], 4 + tail.length + body.length + 1)
        | '|' :: r3 =>
          let g3 := r3.takeWhile (fun c => c != '>')
          if g3.isEmpty then none
          else
            match r3.drop g3.length with
            | '>' :: _ => some (anchorOf g1 g3, 4 + tail.length + body.length + g3.length + 2)
            | _ => none
        | _ => none
  | _ => none

/-- Matcher for the emphasis patterns of src/src/converter.py lines
54-56: a delimiter, one or more non-delimiter characters, the delimiter
again, replaced by the enclosing tag pair. -/
def emphMatch (d : Char) (openTag closeTag : List Char) : List Char → Option (List Char × Nat)
  | c :: rest =>
    if c = d then
      let g := rest.takeWhile (fun x => x != d)
      if g.isEmpty then none
      else
        match rest.drop g.length with
        | x :: _ => if x = d then some (openTag ++ g ++ closeTag, g.length + 1) else none
        | [] => none
    else none
  | [] => none

/-- Python `str.replace` for a one-character pattern: every occurrence is
replaced, in one left-to-right pass. -/
def replaceChar (c : Char) (rep : List Char) : List Char → List Char
  | [] => []
  | x :: xs => (if x = c then rep else [x]) ++ replaceChar c rep xs

/-- The escaping chain of src/src/converter.py line 40:
`text.replace('&', '&amp;').replace('<', '&lt;').replace('>', '&gt;')`,
applied in that order. -/
def escape_html (l : List Char) : List Char :=
  replaceChar '>' "&gt;".data (replaceChar '<' "&lt;".data (replaceChar '&' "&amp;".data l))

/-- The backquote delimiter of the inline-code pattern (code point 96). -/
def backquote : Char := Char.ofNat 96

/-- `SlackArchiveConverter.format_text` (src/src/converter.py lines
32-61) for `format_type='html'`, with the source's substitution order:
URL anchors first, then HTML escaping, then user and channel mentions,
then bold / italic / inline code. -/
def format_text_html (s : String) : String :=
  if s = "" then ""
  else
    let t0 := applySub urlMatch s.data
    let t1 := escape_html t0
    let t2 := applySub userMentionMatch t1
    let t3 := applySub channelMentionMatch t2
    let t4 := applySub (emphMatch '*' "<strong>".data "</strong>".data) t3
    let t5 := applySub (emphMatch '_' "<em>".data "</em>".data) t4
    let t6 := applySub (emphMatch backquote "<code>".data "</code>".data) t5
    String.mk t6

/-- Empty archive document used as the default of partial projections. -/
def emptyDoc : ArchiveDoc :=
  { metadata := { archived_at := "", channel_id := "", channel_name := "", channel_topic := "",
                  channel_purpose := "", is_private := false, created := none, member_count := 0 }
    messages := []
    message_count := 0 }

/-- Document of a successful `archive_channel` run, `emptyDoc` otherwise. -/
def run_doc (r : Except Unit (Option (ArchiveDoc × String))) : ArchiveDoc :=
  match r with
  | Except.ok (some pr) => pr.1
  | _ => emptyDoc

/-- File path of a successful `archive_channel` run. -/
def run_path (r : Except Unit (Option (ArchiveDoc × String))) : String :=
  match r with
  | Except.ok (some pr) => pr.2
  | _ => ""

deriving instance DecidableEq for Except

/-- Whether a modelled history call returned normally (no uncaught
exception). -/
def hist_call_ok (r : Except Unit (List BMsg)) : Bool :=
  match r with
  | Except.ok _ => true
  | Except.error _ => false

/-- Scenario for C1: three top-level messages, the second with two
replies; the thread fetch returns the parent first, as `conversations_replies`
does. -/
def c1_m1 : BMsg := { ts := some "1.0", user := some "U1", text := some "one" }

def c1_m2 : BMsg := { ts := some "2.0", user := some "U2", text := some "two", reply_count := some 2 }

def c1_m3 : BMsg := { ts := some "3.0", user := some "U3", text := some "three" }

def c1_r1 : BMsg := { ts := some "2.5", user := some "U7", text := some "re one" }

def c1_r2 : BMsg := { ts := some "2.8", user := some "U1", text := some "re two" }

def c1_env : ChanEnv :=
  { info := Except.ok {}
    history := [Except.ok { messages := [c1_m1, c1_m2, c1_m3] }]
    threads := fun t => if t = "2.0" then [Except.ok { messages := [c1_m2, c1_r1, c1_r2] }] else []
    stamp := "20250101_120000"
    archived_at := "2025-01-01T12:00:00" }

def c1_run : Except Unit (Option (ArchiveDoc × String)) := archive_channel c1_env "C1" "general" true

def c1_docval : ArchiveDoc := run_doc c1_run

def c1_pathval : String := run_path c1_run

/-- Scenario for C3: one top-level message with one reply; the users
cache resolves both authors. -/
def c3_m : BMsg := { ts := some "1.0", user := some "U9", text := some "hi", reply_count := some 1 }

def c3_r : BMsg := { ts := some "2.0", user := some "U7", text := some "yo" }

def c3_env : ChanEnv :=
  { info := Except.ok {}
    history := [Except.ok { messages := [c3_m] }]
    threads := fun t => if t = "1.0" then [Except.ok { messages := [c3_m, c3_r] }] else []
    cache := fun u => if u = "U7" then some "Alice" else if u = "U9" then some "Bob" else none
    stamp := "20250101_120000"
    archived_at := "2025-01-01T12:00:00" }

def c3_run : Except Unit (Option (ArchiveDoc × String)) := archive_channel c3_env "C3" "general" true

def c3_docval : ArchiveDoc := run_doc c3_run

def c3_pathval : String := run_path c3_run

def c3_topmsg : Msg := c3_docval.messages.headD { base := {}, thread_messages := none }

/-- Scenario for C7: two distinct runs (different histories, hence
different documents) whose `datetime.now()` falls in the same second. -/
def c7_env1 : ChanEnv :=
  { info := Except.ok {}
    history := [Except.ok { messages := [{ ts := some "1.0", text := some "first run" }] }]
    stamp := "20250101_120000"
    archived_at := "2025-01-01T12:00:00.100" }

def c7_env2 : ChanEnv :=
  { info := Except.ok {}
    history := [Except.ok { messages := [{ ts := some "1.0", text := some "first run" },
                                         { ts := some "2.0", text := some "second run" }] }]
    stamp := "20250101_120000"
    archived_at := "2025-01-01T12:00:00.900" }

def c7_run1 : Except Unit (Option (ArchiveDoc × String)) := archive_channel c7_env1 "C7" "general" false

def c7_run2 : Except Unit (Option (ArchiveDoc × String)) := archive_channel c7_env2 "C7" "general" false

/-- Scenario for C2's witness: pages out of chronological order, fetch
truncated by an API error after the first page. -/
def c2_script : List (Except Unit HistPage) :=
  [Except.ok { messages := [{ ts := some "5.0" }, { ts := some "1.5" }], has_more := true },
   Except.error ()]

def c2_result : List BMsg := [{ ts := some "1.5" }, { ts := some "5.0" }]

/-- Scenario for C10: a page carrying a message whose `ts` is not a
number. -/
def c10_bad_script : List (Except Unit HistPage) :=
  [Except.ok { messages := [{ ts := some "not-a-number" }] }]

def c10_good_script : List (Except Unit HistPage) :=
  [Except.ok { messages := [{ ts := some "3.0" }, { ts := some "2.0" }], has_more := true },
   Except.error ()]

/-- Scenario for C5's witness: an enumerator that errors after returning
2 of 3 pages. -/
def c5_p1 : ChanPage := { channels := [⟨"C1", "general"⟩, ⟨"C2", "random"⟩], next_cursor := some "cur1" }

def c5_p2 : ChanPage := { channels := [⟨"C3", "dev"⟩], next_cursor := some "cur2" }

/-! Helper lemmas about the enrichment stages, thread attachment, and the
shape of successful runs. -/

theorem enrich_user_stage_ts (cache : String → Option String) (b : BMsg) :
    (enrich_user_stage cache b).ts = b.ts := by
  unfold enrich_user_stage
  cases b.user <;> rfl

theorem enrich_user_stage_user (cache : String → Option String) (b : BMsg) :
    (enrich_user_stage cache b).user = b.user := by
  unfold enrich_user_stage
  cases h : b.user <;> simp [h]

theorem enrich_user_stage_rc (cache : String → Option String) (b : BMsg) :
    (enrich_user_stage cache b).reply_count = b.reply_count := by
  unfold enrich_user_stage
  cases b.user <;> rfl

theorem enrich_user_stage_user_name (cache : String → Option String) (b : BMsg) (u : String)
    (h : b.user = some u) :
    (enrich_user_stage cache b).user_name = some (_get_user_name cache u) := by
  unfold enrich_user_stage
  rw [h]

theorem enrich_flag_stage_ts (b : BMsg) : (enrich_flag_stage b).ts = b.ts := by
  unfold enrich_flag_stage
  cases b.reply_count <;> dsimp only <;> split <;> rfl

theorem enrich_flag_stage_user (b : BMsg) : (enrich_flag_stage b).user = b.user := by
  unfold enrich_flag_stage
  cases b.reply_count <;> dsimp only <;> split <;> rfl

theorem enrich_flag_stage_rc (b : BMsg) : (enrich_flag_stage b).reply_count = b.reply_count := by
  unfold enrich_flag_stage
  cases h : b.reply_count <;> dsimp only <;> (try split) <;> simp [h]

theorem enrich_flag_stage_user_name (b : BMsg) : (enrich_flag_stage b).user_name = b.user_name := by
  unfold enrich_flag_stage
  cases b.reply_count <;> dsimp only <;> split <;> rfl

theorem enrich_ts_stage_ts (fts : DecVal → Option String) (b : BMsg) :
    (enrich_ts_stage fts b).ts = b.ts := by
  unfold enrich_ts_stage
  cases h : b.ts <;> dsimp only <;> (repeat' split) <;> simp [h]

theorem enrich_ts_stage_user (fts : DecVal → Option String) (b : BMsg) :
    (enrich_ts_stage fts b).user = b.user := by
  unfold enrich_ts_stage
  cases b.ts <;> dsimp only <;> (repeat' split) <;> rfl

theorem enrich_ts_stage_rc (fts : DecVal → Option String) (b : BMsg) :
    (enrich_ts_stage fts b).reply_count = b.reply_count := by
  unfold enrich_ts_stage
  cases b.ts <;> dsimp only <;> (repeat' split) <;> rfl

theorem enrich_ts_stage_user_name (fts : DecVal → Option String) (b : BMsg) :
    (enrich_ts_stage fts b).user_name = b.user_name := by
  unfold enrich_ts_stage
  cases b.ts <;> dsimp only <;> (repeat' split) <;> rfl

theorem enrich_user_stage_readable (cache : String → Option String) (b : BMsg) :
    (enrich_user_stage cache b).timestamp_readable = b.timestamp_readable := by
  unfold enrich_user_stage
  cases b.user <;> rfl

theorem enrich_flag_stage_readable (b : BMsg) :
    (enrich_flag_stage b).timestamp_readable = b.timestamp_readable := by
  unfold enrich_flag_stage
  cases b.reply_count <;> dsimp only <;> (try split) <;> rfl

theorem enrich_ts_stage_readable (fts : DecVal → Option String) (b : BMsg) (s : String)
    (q : DecVal) (r : String) (hts : b.ts = some s) (hq : parse_float s = some q)
    (hr : fts q = some r) :
    (enrich_ts_stage fts b).timestamp_readable = some r := by
  unfold enrich_ts_stage
  rw [hts]
  dsimp only
  rw [hq]
  dsimp only
  rw [hr]

theorem enrich_ts_stage_skip (fts : DecVal → Option String) (b : BMsg) (s : String)
    (hts : b.ts = some s) (hb : (parse_float s).bind fts = none) :
    (enrich_ts_stage fts b).timestamp_readable = b.timestamp_readable := by
  unfold enrich_ts_stage
  rw [hts]
  dsimp only
  cases hp : parse_float s with
  | none => rfl
  | some q =>
    have hf : fts q = none := by
      rw [hp] at hb
      exact hb
    dsimp only
    rw [hf]

theorem enrich_base_ts (fts : DecVal → Option String) (cache : String → Option String)
    (m : Msg) : (_enrich_message fts cache m).base.ts = m.base.ts := by
  unfold _enrich_message
  rw [enrich_ts_stage_ts, enrich_flag_stage_ts, enrich_user_stage_ts]

theorem enrich_base_user (fts : DecVal → Option String) (cache : String → Option String)
    (m : Msg) : (_enrich_message fts cache m).base.user = m.base.user := by
  unfold _enrich_message
  rw [enrich_ts_stage_user, enrich_flag_stage_user, enrich_user_stage_user]

theorem enrich_base_rc (fts : DecVal → Option String) (cache : String → Option String)
    (m : Msg) : (_enrich_message fts cache m).base.reply_count = m.base.reply_count := by
  unfold _enrich_message
  rw [enrich_ts_stage_rc, enrich_flag_stage_rc, enrich_user_stage_rc]

theorem enrich_thread (fts : DecVal → Option String) (cache : String → Option String)
    (m : Msg) : (_enrich_message fts cache m).thread_messages = m.thread_messages := rfl

theorem enrich_key (fts : DecVal → Option String) (cache : String → Option String)
    (m : Msg) : ts_key_val (_enrich_message fts cache m).base = ts_key_val m.base := by
  unfold ts_key_val ts_key
  rw [enrich_base_ts]

theorem enrich_user_name (fts : DecVal → Option String) (cache : String → Option String)
    (m : Msg) (u : String) (h : m.base.user = some u) :
    (_enrich_message fts cache m).base.user_name = some (_get_user_name cache u) := by
  unfold _enrich_message
  dsimp only
  rw [enrich_ts_stage_user_name, enrich_flag_stage_user_name,
    enrich_user_stage_user_name cache m.base u h]

theorem enrich_readable (fts : DecVal → Option String) (cache : String → Option String)
    (m : Msg) (s : String) (q : DecVal) (r : String) (hts : m.base.ts = some s)
    (hq : parse_float s = some q) (hr : fts q = some r) :
    (_enrich_message fts cache m).base.timestamp_readable = some r := by
  unfold _enrich_message
  dsimp only
  exact enrich_ts_stage_readable fts _ s q r
    (by rw [enrich_flag_stage_ts, enrich_user_stage_ts, hts]) hq hr

theorem enrich_readable_skip (fts : DecVal → Option String) (cache : String → Option String)
    (m : Msg) (s : String) (hts : m.base.ts = some s)
    (hb : (parse_float s).bind fts = none) :
    (_enrich_message fts cache m).base.timestamp_readable = m.base.timestamp_readable := by
  unfold _enrich_message
  dsimp only
  rw [enrich_ts_stage_skip fts _ s
      (by rw [enrich_flag_stage_ts, enrich_user_stage_ts, hts]) hb,
    enrich_flag_stage_readable, enrich_user_stage_readable]

theorem attach_one_base (threads : String → List (Except Unit HistPage)) (m : BMsg) (m2 : Msg)
    (h : attach_one threads m = Except.ok m2) : m2.base = m := by
  unfold attach_one at h
  split at h
  · cases hts : m.ts <;> rw [hts] at h
    · cases h
    · cases h
      rfl
  · cases h
    rfl

theorem attach_one_thread (threads : String → List (Except Unit HistPage)) (m : BMsg) (m2 : Msg)
    (h : attach_one threads m = Except.ok m2) :
    (0 < m.reply_count.getD 0 →
      ∃ t, m.ts = some t ∧ m2.thread_messages = some (get_thread_messages (threads t))) ∧
    (m.reply_count.getD 0 = 0 → m2.thread_messages = none) ∧
    (∀ l, m2.thread_messages = some l →
      ∃ t, m.ts = some t ∧ l = get_thread_messages (threads t)) := by
  unfold attach_one at h
  split at h
  case isTrue hpos =>
    cases hts : m.ts <;> rw [hts] at h
    · cases h
    · cases h
      refine ⟨fun _ => ⟨_, rfl, rfl⟩, fun h0 => absurd h0 (Nat.pos_iff_ne_zero.mp hpos), ?_⟩
      intro l hl
      cases hl
      exact ⟨_, rfl, rfl⟩
  case isFalse hneg =>
    cases h
    exact ⟨fun hp => absurd hp hneg, fun _ => rfl, fun l hl => by cases hl⟩

theorem attach_threads_inv (threads : String → List (Except Unit HistPage)) :
    ∀ msgs l2, attach_threads threads msgs = Except.ok l2 →
      l2.map Msg.base = msgs ∧ ∀ w ∈ l2, attach_one threads w.base = Except.ok w := by
  intro msgs
  induction msgs with
  | nil =>
    intro l2 h
    cases h
    exact ⟨rfl, by simp⟩
  | cons m rest ih =>
    intro l2 h
    unfold attach_threads at h
    cases h1 : attach_one threads m <;> rw [h1] at h <;> dsimp only at h
    · cases h
    · cases h2 : attach_threads threads rest <;> rw [h2] at h <;> dsimp only at h
      · cases h
      · cases h
        obtain ⟨hmap, hmem⟩ := ih _ h2
        have hb := attach_one_base threads m _ h1
        refine ⟨by simp [hb, hmap], ?_⟩
        intro w hw
        rcases List.mem_cons.mp hw with hw | hw
        · subst hw
          rw [hb]
          exact h1
        · exact hmem w hw

theorem get_channel_history_ok {script : List (Except Unit HistPage)} {l : List BMsg}
    (h : get_channel_history script = Except.ok l) :
    l = List.insertionSort bmsg_le (fetch_hist_pages script) ∧
    history_keys_ok (fetch_hist_pages script) = true := by
  unfold get_channel_history at h
  split at h
  · cases h
    exact ⟨rfl, by assumption⟩
  · cases h

theorem get_channel_history_sorted {script : List (Except Unit HistPage)} {l : List BMsg}
    (h : get_channel_history script = Except.ok l) : List.Sorted bmsg_le l := by
  rw [(get_channel_history_ok h).1]
  exact List.sorted_insertionSort bmsg_le _

theorem get_channel_history_mem_key {script : List (Except Unit HistPage)} {l : List BMsg}
    (h : get_channel_history script = Except.ok l) {m : BMsg} (hm : m ∈ l) :
    (ts_key m).isSome = true := by
  obtain ⟨hl, hk⟩ := get_channel_history_ok h
  subst hl
  have hmem : m ∈ fetch_hist_pages script :=
    (List.perm_insertionSort bmsg_le _).mem_iff.mp hm
  exact List.all_eq_true.mp hk m hmem

theorem archive_channel_ok {env : ChanEnv} {cid cname : String} {inc : Bool}
    {doc : ArchiveDoc} {p : String}
    (h : archive_channel env cid cname inc = Except.ok (some (doc, p))) :
    ∃ msgs l2,
      get_channel_history env.history = Except.ok msgs ∧
      (if inc then attach_threads env.threads msgs
       else Except.ok (msgs.map (fun m => { base := m, thread_messages := none }))) = Except.ok l2 ∧
      doc.messages = l2.map (_enrich_message env.fromtimestamp env.cache) ∧
      doc.message_count = doc.messages.length ∧
      p = mk_filename cname env.stamp := by
  unfold archive_channel at h
  cases hi : env.info <;> rw [hi] at h <;> dsimp only at h
  · simp at h
  · cases hh : get_channel_history env.history <;> rw [hh] at h <;> dsimp only at h
    · cases h
    · rename_i cinfo msgs
      cases ha : (if inc then attach_threads env.threads msgs
                  else Except.ok (msgs.map (fun m => { base := m, thread_messages := none }))) <;>
        rw [ha] at h <;> dsimp only at h
      · cases h
      · rename_i l2
        cases hs : env.save_ok <;> rw [hs] at h
        · simp at h
        · simp at h
          obtain ⟨h1, h2⟩ := h
          subst h1
          subst h2
          exact ⟨msgs, l2, rfl, ha, rfl, rfl, rfl⟩

theorem sorted_map_base {l2 : List Msg} (h : List.Sorted bmsg_le (l2.map Msg.base)) :
    List.Sorted msg_le l2 := by
  have h2 : l2.Pairwise (fun a b => bmsg_le a.base b.base) := List.pairwise_map.mp h
  exact h2

theorem sorted_enrich (fts : DecVal → Option String) (cache : String → Option String)
    {l2 : List Msg} (h : List.Sorted msg_le l2) :
    List.Sorted msg_le (l2.map (_enrich_message fts cache)) := by
  rw [List.Sorted, List.pairwise_map]
  refine h.imp ?_
  intro a b hab
  unfold msg_le bmsg_le
  rw [enrich_key, enrich_key]
  exact hab

theorem attach_map_base {env : ChanEnv} {inc : Bool} {msgs : List BMsg} {l2 : List Msg}
    (ha : (if inc then attach_threads env.threads msgs
           else Except.ok (msgs.map (fun m => { base := m, thread_messages := none }))) =
          Except.ok l2) :
    l2.map Msg.base = msgs := by
  cases inc with
  | true =>
    simp only [if_true] at ha
    exact (attach_threads_inv env.threads msgs l2 ha).1
  | false =>
    simp only [Bool.false_eq_true, if_false] at ha
    cases ha
    rw [List.map_map]
    rw [show (Msg.base ∘ fun m => ({ base := m, thread_messages := none } : Msg)) = id from rfl]
    exact List.map_id msgs

/-- Claim C2: every archive document's message sequence is sorted
non-decreasing by numeric timestamp, and `get_channel_history` returns a
sorted list whenever it returns at all — in particular also when an API
error truncated the pagination, since the sort is applied to the
accumulated list after the loop regardless of how it ended. -/
theorem c2_history_sorted :
    (∀ (script : List (Except Unit HistPage)) (l : List BMsg),
      get_channel_history script = Except.ok l → List.Sorted bmsg_le l) ∧
    (∀ (env : ChanEnv) (cid cname : String) (inc : Bool) (doc : ArchiveDoc) (p : String),
      archive_channel env cid cname inc = Except.ok (some (doc, p)) →
      List.Sorted msg_le doc.messages) := by
  constructor
  · intro script l h
    exact get_channel_history_sorted h
  · intro env cid cname inc doc p h
    obtain ⟨msgs, l2, hh, ha, hmsgs, _, _⟩ := archive_channel_ok h
    have hbase : l2.map Msg.base = msgs := attach_map_base ha
    have hs2 : List.Sorted msg_le l2 := by
      refine sorted_map_base ?_
      rw [hbase]
      exact get_channel_history_sorted hh
    rw [hmsgs]
    exact sorted_enrich env.fromtimestamp env.cache hs2

/-- Witness for C2: a fetch whose single delivered page is out of
chronological order and whose pagination is cut short by an API error
still yields a sorted partial result. -/
theorem c2_history_sorted_witness : List.Sorted bmsg_le c2_result :=
  c2_history_sorted.1 c2_script c2_result (by decide)

/-- Claim C10: `get_channel_history` is total only when every
accumulated message's `ts` parses — the sort's `float` conversion runs
outside the `try`/`except SlackApiError` handler, so a page containing a
message with a non-numeric `ts` string makes the call raise an uncaught
`ValueError` (modelled `Except.error`) instead of returning a list,
while under the parsing precondition a list is always returned. -/
theorem c10_history_totality :
    get_channel_history c10_bad_script = Except.error () ∧
    ∀ script : List (Except Unit HistPage),
      history_keys_ok (fetch_hist_pages script) = true →
      ∃ l, get_channel_history script = Except.ok l := by
  constructor
  · decide
  · intro script h
    refine ⟨List.insertionSort bmsg_le (fetch_hist_pages script), ?_⟩
    unfold get_channel_history
    rw [h]
    simp

/-- Witness for C10: a run whose `ts` values all parse returns normally
even though an API error truncated it. -/
theorem c10_history_totality_witness :
    hist_call_ok (get_channel_history c10_good_script) = true := by
  obtain ⟨l, hl⟩ := c10_history_totality.2 c10_good_script (by decide)
  rw [hl]
  rfl

/-- Claim C5: when the channel listing fails mid-pagination, the call
returns exactly the channels accumulated from the pages that succeeded
before the error — a list, not an exception and not an empty result. -/
theorem c5_partial_channels (good : List ChanPage)
    (hc : ∀ p ∈ good, cursor_truthy p.next_cursor = true)
    (rest : List (Except Unit ChanPage)) :
    get_all_channels (good.map Except.ok ++ Except.error () :: rest) =
      (good.map ChanPage.channels).join := by
  revert hc
  induction good with
  | nil => intro _; rfl
  | cons p ps ih =>
    intro hc
    have hp := hc p (List.mem_cons_self p ps)
    have hrec := ih (fun q hq => hc q (List.mem_cons_of_mem _ hq))
    show fetch_chan_pages (Except.ok p :: (ps.map Except.ok ++ Except.error () :: rest)) = _
    rw [fetch_chan_pages, hp]
    simp only [if_true, List.map_cons]
    rw [show ((p.channels :: List.map ChanPage.channels ps).join : List Chan) =
          p.channels ++ (List.map ChanPage.channels ps).join from rfl]
    exact congrArg (p.channels ++ ·) hrec

/-- Witness for C5: an enumerator that errors after 2 of 3 pages yields
exactly the channels of those 2 pages. -/
theorem c5_partial_channels_witness :
    get_all_channels [Except.ok c5_p1, Except.ok c5_p2, Except.error ()] =
      ([c5_p1, c5_p2].map ChanPage.channels).join :=
  c5_partial_channels [c5_p1, c5_p2] (by decide) []

theorem archive_channels_loop_spec (envOf : Chan → ChanEnv) (inc : Bool) (l : List Chan) :
    (archive_channels_loop envOf inc l).1 =
      l.filterMap (fun ch =>
        match archive_channel (envOf ch) ch.id ch.name inc with
        | Except.ok (some pr) => some pr.2
        | _ => none) ∧
    (archive_channels_loop envOf inc l).2 =
      l.filterMap (fun ch =>
        match archive_channel (envOf ch) ch.id ch.name inc with
        | Except.ok (some _) => none
        | _ => some ch.name) ∧
    (archive_channels_loop envOf inc l).1.length +
      (archive_channels_loop envOf inc l).2.length = l.length := by
  induction l with
  | nil => exact ⟨rfl, rfl, rfl⟩
  | cons ch rest ih =>
    obtain ⟨ih1, ih2, ih3⟩ := ih
    cases hr : archive_channel (envOf ch) ch.id ch.name inc with
    | error e =>
      have e1 : (archive_channels_loop envOf inc (ch :: rest)).1 =
          (archive_channels_loop envOf inc rest).1 := by
        simp only [archive_channels_loop, hr]
      have e2 : (archive_channels_loop envOf inc (ch :: rest)).2 =
          ch.name :: (archive_channels_loop envOf inc rest).2 := by
        simp only [archive_channels_loop, hr]
      refine ⟨?_, ?_, ?_⟩
      · rw [e1, ih1, List.filterMap_cons]
        simp only [hr]
      · rw [e2, ih2, List.filterMap_cons]
        simp only [hr]
      · rw [e1, e2]
        simp only [List.length_cons]
        omega
    | ok o =>
      cases o with
      | none =>
        have e1 : (archive_channels_loop envOf inc (ch :: rest)).1 =
            (archive_channels_loop envOf inc rest).1 := by
          simp only [archive_channels_loop, hr]
        have e2 : (archive_channels_loop envOf inc (ch :: rest)).2 =
            ch.name :: (archive_channels_loop envOf inc rest).2 := by
          simp only [archive_channels_loop, hr]
        refine ⟨?_, ?_, ?_⟩
        · rw [e1, ih1, List.filterMap_cons]
          simp only [hr]
        · rw [e2, ih2, List.filterMap_cons]
          simp only [hr]
        · rw [e1, e2]
          simp only [List.length_cons]
          omega
      | some pr =>
        have e1 : (archive_channels_loop envOf inc (ch :: rest)).1 =
            pr.2 :: (archive_channels_loop envOf inc rest).1 := by
          simp only [archive_channels_loop, hr]
        have e2 : (archive_channels_loop envOf inc (ch :: rest)).2 =
            (archive_channels_loop envOf inc rest).2 := by
          simp only [archive_channels_loop, hr]
        refine ⟨?_, ?_, ?_⟩
        · rw [e1, ih1, List.filterMap_cons]
          simp only [hr]
        · rw [e2, ih2, List.filterMap_cons]
          simp only [hr]
        · rw [e1, e2]
          simp only [List.length_cons]
          omega

/-- Claim C8: `archive_all_channels` attempts every enumerated channel:
the saved-paths list is exactly the paths of the channels whose
`archive_channel` call returned a path; every channel whose call
returned `None` (failed channel-info lookup or failed write) or raised
is recorded by name in the failure list; and the two lists partition the
enumerated channels, so no failure aborts the remaining ones. -/
theorem c8_archive_all_partition (chan_script : List (Except Unit ChanPage))
    (envOf : Chan → ChanEnv) (inc : Bool) :
    (archive_all_channels chan_script envOf inc).1 =
      (get_all_channels chan_script).filterMap (fun ch =>
        match archive_channel (envOf ch) ch.id ch.name inc with
        | Except.ok (some pr) => some pr.2
        | _ => none) ∧
    (archive_all_channels chan_script envOf inc).2 =
      (get_all_channels chan_script).filterMap (fun ch =>
        match archive_channel (envOf ch) ch.id ch.name inc with
        | Except.ok (some _) => none
        | _ => some ch.name) ∧
    (archive_all_channels chan_script envOf inc).1.length +
      (archive_all_channels chan_script envOf inc).2.length =
      (get_all_channels chan_script).length :=
  archive_channels_loop_spec envOf inc (get_all_channels chan_script)

/-- Claim C9: the spec's `only_joined` filter does not exist in the
archiver — `get_all_channels` and `archive_all_channels` accept no such
keyword, while `main.py` always passes it, so every such call raises
`TypeError` instead of filtering to joined channels. -/
theorem c9_only_joined_keyword_rejected :
    py_kwargs_accepted get_all_channels_kw_params main_list_call_keywords = false ∧
    py_kwargs_accepted archive_all_channels_kw_params main_archive_all_call_keywords = false ∧
    get_all_channels_kw_params.contains "only_joined" = false ∧
    archive_all_channels_kw_params.contains "only_joined" = false := by
  exact ⟨rfl, rfl, rfl, rfl⟩

theorem users_cache_foldl_some (users : List UserRec) :
    ∀ (m : String → Option String) (id nm : String),
      (users.foldl (fun m u k => if k = u.id then some (user_display_name u) else m k) m) id =
        some nm →
      (∃ u ∈ users, u.id = id ∧ nm = user_display_name u) ∨ m id = some nm := by
  induction users with
  | nil =>
    intro m id nm h
    exact Or.inr h
  | cons u rest ih =>
    intro m id nm h
    rw [List.foldl_cons] at h
    rcases ih _ id nm h with hex | hm
    · obtain ⟨v, hv, hvid, hnm⟩ := hex
      exact Or.inl ⟨v, List.mem_cons_of_mem _ hv, hvid, hnm⟩
    · by_cases hid : id = u.id
      · rw [if_pos hid] at hm
        exact Or.inl ⟨u, List.mem_cons_self u rest, hid.symm, (Option.some.inj hm).symm⟩
      · rw [if_neg hid] at hm
        exact Or.inr hm

theorem users_cache_foldl_miss (users : List UserRec) :
    ∀ (m : String → Option String) (id : String), (∀ u ∈ users, u.id ≠ id) →
      (users.foldl (fun m u k => if k = u.id then some (user_display_name u) else m k) m) id =
        m id := by
  induction users with
  | nil =>
    intro m id _
    rfl
  | cons u rest ih =>
    intro m id h
    rw [List.foldl_cons, ih _ id (fun v hv => h v (List.mem_cons_of_mem _ hv))]
    exact if_neg (fun he : id = u.id => (h u (List.mem_cons_self u rest)) he.symm)

/-- Claim C6 (amended): the stored display name follows the chain
real-name (when present and non-empty) → handle (whenever the `name` key
is present, even when its value is blank) → the literal `"Unknown"`
(only when the `name` key is absent); `resolve` returns the cached name,
or the identifier itself on a miss; and the stored name is non-blank
provided a present handle value is non-blank — a record with a blank or
absent real name and a present blank handle stores a blank name, which
is the only way a blank arises. -/
theorem c6_display_name_amended :
    (∀ (u : UserRec) (s : String), u.real_name = some s → s ≠ "" → user_display_name u = s) ∧
    (∀ (u : UserRec) (t : String), (u.real_name = none ∨ u.real_name = some "") →
      u.name = some t → user_display_name u = t) ∧
    (∀ u : UserRec, (u.real_name = none ∨ u.real_name = some "") → u.name = none →
      user_display_name u = "Unknown") ∧
    (∀ u : UserRec, u.name ≠ some "" → user_display_name u ≠ "") ∧
    (∀ (users : List UserRec) (id nm : String), users_cache_of users id = some nm →
      ∃ u ∈ users, u.id = id ∧ nm = user_display_name u) ∧
    (∀ (users : List UserRec) (id : String), (∀ u ∈ users, u.id ≠ id) →
      _get_user_name (users_cache_of users) id = id) := by
  refine ⟨?_, ?_, ?_, ?_, ?_, ?_⟩
  · intro u s h hs
    unfold user_display_name
    rw [h]
    simp [String.isEmpty_iff, hs]
  · intro u t hr hn
    rcases hr with hr | hr <;> simp [user_display_name, hr, hn, String.isEmpty_iff]
  · intro u hr hn
    rcases hr with hr | hr <;> simp [user_display_name, hr, hn, String.isEmpty_iff]
  · intro u h
    obtain ⟨uid, rn, nm⟩ := u
    cases rn with
    | none =>
      cases nm with
      | none => simp [user_display_name]
      | some t =>
        have ht : t ≠ "" := fun he => h (by rw [he])
        simpa [user_display_name, String.isEmpty_iff] using ht
    | some s =>
      cases nm with
      | none =>
        simp only [user_display_name, String.isEmpty_iff]
        split
        · simp
        · assumption
      | some t =>
        have ht : t ≠ "" := fun he => h (by rw [he])
        simp only [user_display_name, String.isEmpty_iff]
        split
        · exact ht
        · assumption
  · intro users id nm h
    unfold users_cache_of at h
    rcases users_cache_foldl_some users _ id nm h with hex | hm
    · exact hex
    · exact Option.noConfusion hm
  · intro users id h
    unfold _get_user_name users_cache_of
    rw [users_cache_foldl_miss users _ id h]
    rfl

/-- Counterexample for C6: a record whose real-name key is absent and
whose handle key is present but blank is stored with a blank display
name, contradicting the claim that the resulting display name is never
blank. -/
theorem c6_blank_name_cex :
    users_cache_of [{ id := "U1", real_name := none, name := some "" }] "U1" = some "" ∧
    user_display_name { id := "U1", real_name := none, name := some "" } = "" := by
  exact ⟨by decide, by decide⟩

/-- Witness for C6's amended theorem: real-name preferred, handle
fallback, literal Unknown, and identifier fallback on a cache miss. -/
theorem c6_display_name_witness :
    user_display_name { id := "U1", real_name := some "Jane Doe", name := some "jane" } =
      "Jane Doe" ∧
    user_display_name { id := "U2", real_name := none, name := some "bob" } = "bob" ∧
    user_display_name { id := "U3", real_name := some "", name := none } = "Unknown" ∧
    _get_user_name
      (users_cache_of [{ id := "U1", real_name := some "Jane Doe", name := some "jane" }])
      "U9" = "U9" := by
  refine ⟨c6_display_name_amended.1 _ "Jane Doe" rfl (by decide),
          c6_display_name_amended.2.1 _ "bob" (Or.inl rfl) rfl,
          c6_display_name_amended.2.2.1 _ (Or.inr rfl) rfl,
          c6_display_name_amended.2.2.2.2.2 _ "U9" (by decide)⟩

/-- Claim C7 (amended): re-archiving the same channel at a different
seconds-granularity timestamp always produces a distinct filename (the
stamp is recoverable from the filename by cancelling the fixed prefix
and suffix); two runs that fall within the same second produce the same
filename, and the later write overwrites the earlier document. -/
theorem c7_distinct_stamp_distinct_filename (c s1 s2 : String) (h : s1 ≠ s2) :
    mk_filename c s1 ≠ mk_filename c s2 := by
  intro he
  apply h
  unfold mk_filename at he
  have hd := congrArg String.data he
  simp only [String.data_append, List.append_assoc] at hd
  have h1 := List.append_cancel_left hd
  have h2 := List.append_cancel_left h1
  have h3 := List.append_cancel_right h2
  exact String.ext h3

/-- Witness for C7's amended theorem: stamps one second apart give
distinct filenames. -/
theorem c7_filename_witness :
    mk_filename "general" "20250101_120000" ≠ mk_filename "general" "20250101_120001" :=
  c7_distinct_stamp_distinct_filename "general" "20250101_120000" "20250101_120001" (by decide)

/-- Counterexample for C7: two distinct archive runs (their documents
differ) whose `datetime.now()` falls within the same second produce the
same filename, so the second write overwrites the first document —
contradicting the claim that filenames never collide across runs. -/
theorem c7_same_second_collision_cex :
    run_path c7_run1 = "general_20250101_120000.json" ∧
    run_path c7_run2 = "general_20250101_120000.json" ∧
    run_doc c7_run1 ≠ run_doc c7_run2 := by
  refine ⟨by decide, by decide, by decide⟩

/-- Claim C1 (amended): with `include_threads=true`, every archived
message with a positive reply count carries under `thread_messages`
exactly the raw fetched reply sequence — which includes the parent
itself whenever the API returns it first, as `conversations_replies`
does — so a parent with exactly 2 replies carries a sequence of length
3; messages without replies carry no `thread_messages` key; and
`message_count` still counts only the top-level messages. -/
theorem c1_thread_attachment_amended (env : ChanEnv) (cid cname : String)
    (doc : ArchiveDoc) (p : String)
    (h : archive_channel env cid cname true = Except.ok (some (doc, p))) :
    doc.message_count = doc.messages.length ∧
    ∀ m ∈ doc.messages,
      (0 < m.base.reply_count.getD 0 →
        ∃ t, m.base.ts = some t ∧
          m.thread_messages = some (get_thread_messages (env.threads t))) ∧
      (m.base.reply_count.getD 0 = 0 → m.thread_messages = none) := by
  obtain ⟨msgs, l2, hh, ha, hmsgs, hcount, hp⟩ := archive_channel_ok h
  simp only [if_true] at ha
  obtain ⟨hbase, hmem⟩ := attach_threads_inv env.threads msgs l2 ha
  refine ⟨hcount, ?_⟩
  intro m hm
  rw [hmsgs] at hm
  obtain ⟨w, hw, rfl⟩ := List.mem_map.mp hm
  have hone := hmem w hw
  have hth := attach_one_thread env.threads w.base w hone
  constructor
  · intro hpos
    rw [enrich_base_rc] at hpos
    obtain ⟨t, ht, hthm⟩ := hth.1 hpos
    refine ⟨t, ?_, ?_⟩
    · rw [enrich_base_ts]
      exact ht
    · rw [enrich_thread]
      exact hthm
  · intro hz
    rw [enrich_base_rc] at hz
    rw [enrich_thread]
    exact hth.2.1 hz

/-- Counterexample for C1: in the concrete scenario (3 top-level
messages, message 2 with `reply_count=2`, thread fetch returning the
parent first), the archived message 2 carries a `thread_messages`
sequence of length 3 that contains message 2's own timestamp — not
length 2 with the parent excluded, as the claim states.  The
`message_count=3` part holds. -/
theorem c1_thread_includes_parent_cex :
    c1_docval.message_count = 3 ∧
    c1_docval.messages[1]?.map (fun m => m.base.ts) = some (some "2.0") ∧
    c1_docval.messages[1]?.map (fun m => m.base.reply_count) = some (some 2) ∧
    (c1_docval.messages[1]?.bind Msg.thread_messages).map List.length = some 3 ∧
    (c1_docval.messages[1]?.bind Msg.thread_messages).map (List.map BMsg.ts) =
      some [some "2.0", some "2.5", some "2.8"] := by
  refine ⟨by decide, by decide, by decide, by decide, by decide⟩

/-- Witness for C1's amended theorem at the concrete scenario. -/
theorem c1_thread_attachment_witness :
    c1_docval.message_count = c1_docval.messages.length :=
  (c1_thread_attachment_amended c1_env "C1" "general" c1_docval c1_pathval (by decide)).1

/-- Claim C3 (amended): `archive_channel` enriches only the top-level
messages: each top-level message with a `user` key receives `user_name`
resolved through the cache, and each whose fixed-point timestamp parses
and whose calendar conversion (`datetime.fromtimestamp(...).isoformat()`)
succeeds receives `timestamp_readable`; a timestamp whose parse or
conversion fails only leaves that field as it was — the enrichment
itself never fails; and the `thread_messages` sequences are attached
exactly as fetched, their reply messages not enriched. -/
theorem c3_enrichment_amended (env : ChanEnv) (cid cname : String) (inc : Bool)
    (doc : ArchiveDoc) (p : String)
    (h : archive_channel env cid cname inc = Except.ok (some (doc, p))) :
    (∀ m ∈ doc.messages,
      (∀ u, m.base.user = some u → m.base.user_name = some (_get_user_name env.cache u)) ∧
      (∀ s q r, m.base.ts = some s → parse_float s = some q → env.fromtimestamp q = some r →
        m.base.timestamp_readable = some r) ∧
      (∀ l, m.thread_messages = some l →
        ∃ t, m.base.ts = some t ∧ l = get_thread_messages (env.threads t))) ∧
    (∀ (m : Msg) (s : String), m.base.ts = some s →
      (parse_float s).bind env.fromtimestamp = none →
      (_enrich_message env.fromtimestamp env.cache m).base.timestamp_readable =
        m.base.timestamp_readable) := by
  obtain ⟨msgs, l2, hh, ha, hmsgs, hcount, hp⟩ := archive_channel_ok h
  constructor
  · intro m hm
    rw [hmsgs] at hm
    obtain ⟨w, hw, rfl⟩ := List.mem_map.mp hm
    refine ⟨?_, ?_, ?_⟩
    · intro u hu
      rw [enrich_base_user] at hu
      exact enrich_user_name env.fromtimestamp env.cache w u hu
    · intro s q r hs hq hr
      rw [enrich_base_ts] at hs
      exact enrich_readable env.fromtimestamp env.cache w s q r hs hq hr
    · intro l hl
      rw [enrich_thread] at hl
      cases inc with
      | true =>
        simp only [if_true] at ha
        have hone := (attach_threads_inv env.threads msgs l2 ha).2 w hw
        obtain ⟨t, ht, hlt⟩ := (attach_one_thread env.threads w.base w hone).2.2 l hl
        refine ⟨t, ?_, hlt⟩
        rw [enrich_base_ts]
        exact ht
      | false =>
        simp only [Bool.false_eq_true, if_false] at ha
        cases ha
        obtain ⟨m0, hm0, rfl⟩ := List.mem_map.mp hw
        exact Option.noConfusion hl
  · intro m s hs hb
    exact enrich_readable_skip env.fromtimestamp env.cache m s hs hb

/-- Counterexample for C3: in the concrete scenario the thread reply
(author `U7`, parseable `ts`) is stored raw: it receives neither a
`user_name` nor a `timestamp_readable`, although the cache resolves
`U7`; only the top-level message was enriched (its `user_name` is
`Bob`).  This contradicts the claim that every thread reply message is
enriched. -/
theorem c3_thread_reply_not_enriched_cex :
    c3_env.cache "U7" = some "Alice" ∧
    c3_docval.messages[0]?.map (fun m => m.base.user_name) = some (some "Bob") ∧
    (c3_docval.messages[0]?.bind Msg.thread_messages).map (List.map BMsg.user) =
      some [some "U9", some "U7"] ∧
    (c3_docval.messages[0]?.bind Msg.thread_messages).map (List.map BMsg.user_name) =
      some [none, none] ∧
    (c3_docval.messages[0]?.bind Msg.thread_messages).map (List.map BMsg.timestamp_readable) =
      some [none, none] := by
  refine ⟨by decide, by decide, by decide, by decide, by decide⟩

/-- Witness for C3's amended theorem at the concrete scenario: the
top-level message's author is resolved through the cache. -/
theorem c3_enrichment_witness :
    c3_topmsg.base.user_name = some (_get_user_name c3_env.cache "U9") := by
  have h := c3_enrichment_amended c3_env "C3" "general" true c3_docval c3_pathval (by decide)
  exact (h.1 c3_topmsg (by decide)).1 "U9" (by decide)

/-- Claim C4 (code behavior at the claimed input): `format_text` in HTML
mode substitutes the URL anchor first and escapes afterwards, so the
generated anchor is itself escaped, and the mention pattern — applied
after escaping — no longer matches the escaped `&lt;@U123&gt;`; the
output is the fully escaped text, not the claimed
`@U123 check <a ...>this</a>`. -/
theorem c4_format_text_escapes_generated_html :
    format_text_html "<@U123> check <https://x.com|this>" =
      "&lt;@U123&gt; check &lt;a href=\"https://x.com\" target=\"_blank\"&gt;this&lt;/a&gt;" ∧
    format_text_html "<@U123> check <https://x.com|this>" ≠
      "@U123 check <a href=\"https://x.com\" target=\"_blank\">this</a>" := by
  exact ⟨by decide, by decide⟩
